import Mathlib

/-!
Shallow embedding of the rice-weed-detector repository.

Sources embedded here:
* `src/model_integration.py` — class `YOLOv11WeedDetector`: the methods
  `detect_weeds` and `is_weed_class`, together with the surrounding error
  handling and the classification and drawing stages.
* `src/test.py` — class `RiceWeedDetectorApp`: the webcam lifecycle
  (`stop_webcam`) and the inline alert throttle of `update_webcam`.

Modelling conventions: Python strings are `List Char` (the class names and
keywords of the repository are ASCII, where `Char.toLower` agrees with the
Python `str.lower`); confidences are `ℚ` (Python floats compared and maxed
exactly); exceptions raised by external libraries are environment outcomes
of type `Except Unit _`; wall-clock instants are `ℕ` seconds.
-/

namespace RiceWeed

/-! ### Definitions: strings and the weed-keyword classifier -/

/-- The Python `str.lower`, character by character (ASCII). -/
def lowerName (s : List Char) : List Char := s.map Char.toLower

/-- Helper for the Python substring operator: does `hay` start with `needle`? -/
def startsWith : List Char → List Char → Bool
  | [], _ => true
  | _ :: _, [] => false
  | a :: as, b :: bs => a == b && startsWith as bs

/-- The Python substring operator `needle in hay` on strings. -/
def containsSub (needle : List Char) : List Char → Bool
  | [] => startsWith needle []
  | b :: bs => startsWith needle (b :: bs) || containsSub needle bs

/-- The fixed marker keywords of `is_weed_class` (src/model_integration.py line 200). -/
def weed_keywords : List (List Char) :=
  ["weed", "unwanted", "invasive", "pest", "grass"].map String.toList

/-- `YOLOv11WeedDetector.is_weed_class` (src/model_integration.py lines 198-204):
lowercase the class name, then test whether any keyword occurs in it. -/
def is_weed_class (class_name : List Char) : Bool :=
  weed_keywords.any (fun keyword => containsSub keyword (lowerName class_name))

/-- Specification-level substring relation: `needle` occurs contiguously in `hay`. -/
def OccursIn (needle hay : List Char) : Prop :=
  ∃ l r, hay = l ++ needle ++ r

/-! ### Definitions: data model of `YOLOv11WeedDetector.detect_weeds` -/

/-- Abstract image data (the contents of a PIL image). -/
abbrev ImageData := Nat

/-- One detection box as the classification loop sees it: its class id and
its confidence score (`detections.class_id[i]`, `detections.confidence[i]`). -/
structure Detection where
  classId : Nat
  conf : ℚ
deriving DecidableEq

/-- The loaded YOLO model as `detect_weeds` uses it: its `names` mapping from
class ids to class-name strings. A missing id models the per-detection
lookup exception that the loop catches with `continue`. -/
structure YoloModel where
  names : Nat → Option (List Char)

/-- `YOLOv11WeedDetector` state: the optional loaded model and the
confidence threshold. -/
structure Detector where
  model : Option YoloModel
  confidence_threshold : ℚ

/-- The external world of one `detect_weeds` call: the filesystem and what
each library call (PIL open, YOLO predict, supervision conversion, the
supervision drawing helpers) returns or raises. An `Except.error` is a
raised exception caught by the corresponding `try` block of the Python code. -/
structure Env where
  pathExists : Bool
  imageLoad : Except Unit ImageData
  predict : Except Unit (List Unit)
  convert : Except Unit (List Detection)
  annotate : Except Unit ImageData

/-- The 4-tuple `detect_weeds` returns:
`(annotated_image_pil, weed_detected, detection_count, max_confidence)`. -/
structure DetectionResult where
  image : Option ImageData
  weed_detected : Bool
  weed_count : Nat
  max_confidence : ℚ
deriving DecidableEq

/-- The failure value `(None, False, 0, 0.0)` returned on every fatal branch. -/
def failResult : DetectionResult := ⟨none, false, 0, 0⟩

/-- One iteration of the classification loop (src/model_integration.py lines
141-160): look up the class name (a failure is caught and skipped with
`continue`), lowercase it, and when `is_weed_class` holds update the
`weed_detected` / `weed_count` / `max_confidence` accumulator. -/
def classifyStep (m : YoloModel) (acc : Bool × Nat × ℚ) (d : Detection) : Bool × Nat × ℚ :=
  match m.names d.classId with
  | none => acc
  | some name =>
    if is_weed_class (lowerName name) then
      (true, acc.2.1 + 1, max acc.2.2 d.conf)
    else acc

/-- The whole classification loop, started from
`weed_detected = False`, `weed_count = 0`, `max_confidence = 0.0`. -/
def classifyDetections (m : YoloModel) (dets : List Detection) : Bool × Nat × ℚ :=
  dets.foldl (classifyStep m) (false, 0, 0)

/-- `YOLOv11WeedDetector.detect_weeds` (src/model_integration.py lines 72-196),
with every library interaction drawn from `env`: model absent, missing
path, unreadable image and prediction exceptions short-circuit to
`failResult`; empty prediction results and conversion exceptions return
the loaded image with zero detections; then the classification loop runs,
and the drawing helpers run only when there are detections, falling back
to the original image on exception. -/
def detect_weeds (det : Detector) (env : Env) : DetectionResult :=
  match det.model with
  | none => failResult
  | some m =>
    if !env.pathExists then failResult
    else
      match env.imageLoad with
      | .error _ => failResult
      | .ok image =>
        match env.predict with
        | .error _ => failResult
        | .ok results =>
          if results.isEmpty then ⟨some image, false, 0, 0⟩
          else
            match env.convert with
            | .error _ => ⟨some image, false, 0, 0⟩
            | .ok dets =>
              let c := classifyDetections m dets
              let annotated :=
                if dets.isEmpty then image
                else
                  match env.annotate with
                  | .error _ => image
                  | .ok a => a
              ⟨some annotated, c.1, c.2.1, c.2.2⟩

/-- `detect_weeds` as a state transition on the detector: the method body
contains no assignment to `self`, so the detector state passes through
unchanged alongside the returned tuple. -/
def detect_weeds_run (det : Detector) (env : Env) : Detector × DetectionResult :=
  (det, detect_weeds det env)

/-- Modelled from the spec: the Ultralytics prediction engine invoked as
`self.model.predict(source=image, conf=self.confidence_threshold, ...)`
(src/model_integration.py lines 108-112) is not part of the sources of
this repository; per the spec it excludes detections below
`confidence_threshold` with an exclusive-below boundary, i.e. it keeps
exactly the raw detections whose confidence is at least the threshold. -/
def enginePredict (raw : List Detection) (t : ℚ) : List Detection :=
  raw.filter (fun d => t ≤ d.conf)

/-- The Target Classifier predicate as the classification loop applies it to
one detection: resolve the class id through `model.names` (unresolvable
ids are skipped, hence not targets) and test `is_weed_class` on the
lowercased name. -/
def isTarget (m : YoloModel) (d : Detection) : Bool :=
  match m.names d.classId with
  | none => false
  | some name => is_weed_class (lowerName name)

/-- The detections the conversion stage of `env` hands to the classification
loop: the converted list on success, nothing on a conversion exception. -/
def envConvList (env : Env) : List Detection :=
  match env.convert with
  | .ok l => l
  | .error _ => []

/-! ### Definitions: webcam lifecycle and alert throttle (`src/test.py`) -/

/-- The capture-session fields of `RiceWeedDetectorApp` touched by the webcam
lifecycle (initialised at src/test.py lines 36-40): the optional device
handle `self.cap`, the loop flag `self.webcam_running`, the two mode
flags, the last captured frame, and the visibility of the controls bar. -/
structure AppState where
  cap : Option Nat
  webcam_running : Bool
  snapshot_mode : Bool
  realtime_mode : Bool
  current_webcam_frame : Option ImageData
  controls_visible : Bool
deriving DecidableEq

/-- `RiceWeedDetectorApp.stop_webcam` (src/test.py lines 605-617): clear the
running flag, release and null the handle when one is held, hide the
controls, clear both mode flags. The final branch of the method only
rewrites a UI label (when no frame attribute was ever set) and
`current_webcam_frame` itself is never reassigned. -/
def stop_webcam (s : AppState) : AppState :=
  { s with
    webcam_running := false
    cap := none
    controls_visible := false
    snapshot_mode := false
    realtime_mode := false }

/-- Seconds in a day, the period of the `seconds` field of a Python timedelta. -/
def secondsPerDay : Nat := 86400

/-- The Python `timedelta.seconds` attribute for a non-negative elapsed time:
the whole-seconds component after the days are split off, i.e. the elapsed
whole seconds modulo one day (never the total). -/
def timedeltaSeconds (elapsed : Nat) : Nat := elapsed % secondsPerDay

/-- The inline alert throttle of `RiceWeedDetectorApp.update_webcam`
(src/test.py lines 651-654): permit when `last_alert_time` is `None` or
`(current_time - last_alert_time).seconds > 60`; on permit, record the
current time. Returns the decision and the new `last_alert_time`. -/
def should_alert (last : Option Nat) (now : Nat) : Bool × Option Nat :=
  match last with
  | none => (true, some now)
  | some t =>
    if timedeltaSeconds (now - t) > 60 then (true, some now)
    else (false, some t)

/-! ### Definitions: concrete instances used by closed statements -/

/-- A model that calls every class id `weed`. -/
def weedOnlyModel : YoloModel := ⟨fun _ => some ("weed".toList)⟩

/-- A detector holding `weedOnlyModel` with threshold `0`. -/
def zeroThresholdDetector : Detector := ⟨some weedOnlyModel, 0⟩

/-- An environment whose single converted detection has confidence `0`. -/
def zeroConfEnv : Env := ⟨true, .ok 0, .ok [()], .ok [⟨0, 0⟩], .ok 0⟩

/-- An environment whose drawing stage raises after a successful
classification of the single detection `(id 0, confidence 1/2)`. -/
def annotFailEnv : Env := ⟨true, .ok 5, .ok [()], .ok [⟨0, 1/2⟩], .error ()⟩

/-- The environment `annotFailEnv` with the drawing stage succeeding. -/
def annotOkEnv : Env := ⟨true, .ok 5, .ok [()], .ok [⟨0, 1/2⟩], .ok 9⟩

/-- An environment whose prediction stage raises a backend exception. -/
def predictFailEnv : Env := ⟨true, .ok 0, .error (), .ok [], .ok 0⟩

/-- A detector holding `weedOnlyModel` with the default threshold `1/2`. -/
def loadedDetector : Detector := ⟨some weedOnlyModel, 1/2⟩

/-- A capture session that is live in snapshot mode with a captured frame. -/
def runningSession : AppState := ⟨some 0, true, true, false, some 7, true⟩

/-! ### Lemmas: the substring operator -/

theorem startsWith_iff (needle hay : List Char) :
    startsWith needle hay = true ↔ ∃ r, hay = needle ++ r := by
  induction needle generalizing hay with
  | nil => simp [startsWith]
  | cons a as ih =>
    cases hay with
    | nil => simp [startsWith]
    | cons b bs =>
      simp only [startsWith, Bool.and_eq_true, beq_iff_eq, ih, List.cons_append]
      constructor
      · rintro ⟨rfl, r, rfl⟩
        exact ⟨r, rfl⟩
      · rintro ⟨r, h⟩
        injection h with h1 h2
        exact ⟨h1.symm, r, h2⟩

theorem containsSub_iff (needle hay : List Char) :
    containsSub needle hay = true ↔ OccursIn needle hay := by
  induction hay with
  | nil =>
    simp only [containsSub, startsWith_iff, OccursIn]
    constructor
    · rintro ⟨r, h⟩
      exact ⟨[], r, by simpa using h⟩
    · rintro ⟨l, r, h⟩
      refine ⟨r, ?_⟩
      have hl : l = [] := by
        cases l with
        | nil => rfl
        | cons x xs => simp at h
      subst hl
      simpa using h
  | cons b bs ih =>
    simp only [containsSub, Bool.or_eq_true, startsWith_iff, ih, OccursIn]
    constructor
    · rintro (⟨r, h⟩ | ⟨l, r, h⟩)
      · exact ⟨[], r, by simpa using h⟩
      · exact ⟨b :: l, r, by simp [h]⟩
    · rintro ⟨l, r, h⟩
      cases l with
      | nil => exact Or.inl ⟨r, by simpa using h⟩
      | cons x xs =>
        injection h with h1 h2
        exact Or.inr ⟨xs, r, h2⟩

/-! ### Lemmas: the classification loop -/

theorem classifyStep_eq (m : YoloModel) (acc : Bool × Nat × ℚ) (d : Detection) :
    classifyStep m acc d =
      if isTarget m d then (true, acc.2.1 + 1, max acc.2.2 d.conf) else acc := by
  unfold classifyStep isTarget
  cases m.names d.classId with
  | none => simp
  | some name =>
    by_cases h : is_weed_class (lowerName name) <;> simp [h]

theorem classify_foldl_count (m : YoloModel) (dets : List Detection) (acc : Bool × Nat × ℚ) :
    (dets.foldl (classifyStep m) acc).2.1 = acc.2.1 + (dets.filter (isTarget m)).length := by
  induction dets generalizing acc with
  | nil => simp
  | cons d ds ih =>
    rw [List.foldl_cons, ih, classifyStep_eq, List.filter_cons]
    by_cases h : isTarget m d
    · simp [h]
      omega
    · simp [h]

theorem classify_foldl_flag (m : YoloModel) (dets : List Detection) (acc : Bool × Nat × ℚ) :
    (dets.foldl (classifyStep m) acc).1 = (acc.1 || !(dets.filter (isTarget m)).isEmpty) := by
  induction dets generalizing acc with
  | nil => simp
  | cons d ds ih =>
    rw [List.foldl_cons, ih, classifyStep_eq, List.filter_cons]
    by_cases h : isTarget m d <;> simp [h]

theorem classify_foldl_max (m : YoloModel) (dets : List Detection) (acc : Bool × Nat × ℚ) :
    (dets.foldl (classifyStep m) acc).2.2 =
      (dets.filter (isTarget m)).foldl (fun q d => max q d.conf) acc.2.2 := by
  induction dets generalizing acc with
  | nil => simp
  | cons d ds ih =>
    rw [List.foldl_cons, ih, classifyStep_eq, List.filter_cons]
    by_cases h : isTarget m d <;> simp [h]

theorem le_foldl_maxConf (l : List Detection) (a : ℚ) :
    a ≤ l.foldl (fun q d => max q d.conf) a := by
  induction l generalizing a with
  | nil => simp
  | cons d ds ih =>
    rw [List.foldl_cons]
    exact le_trans (le_max_left a d.conf) (ih (max a d.conf))

theorem conf_le_foldl_maxConf (l : List Detection) (a : ℚ) (d : Detection) (hd : d ∈ l) :
    d.conf ≤ l.foldl (fun q d => max q d.conf) a := by
  induction l generalizing a with
  | nil => cases hd
  | cons e es ih =>
    rw [List.foldl_cons]
    rcases List.mem_cons.mp hd with rfl | hd
    · exact le_trans (le_max_right a d.conf) (le_foldl_maxConf es (max a d.conf))
    · exact ih (max a e.conf) hd

theorem foldl_maxConf_eq_or_mem (l : List Detection) (a : ℚ) :
    l.foldl (fun q d => max q d.conf) a = a ∨
      ∃ d ∈ l, l.foldl (fun q d => max q d.conf) a = d.conf := by
  induction l generalizing a with
  | nil => exact Or.inl rfl
  | cons e es ih =>
    rw [List.foldl_cons]
    rcases ih (max a e.conf) with h | ⟨d, hd, h⟩
    · rcases max_choice a e.conf with h2 | h2
      · exact Or.inl (by rw [h, h2])
      · exact Or.inr ⟨e, List.mem_cons_self e es, by rw [h, h2]⟩
    · exact Or.inr ⟨d, List.mem_cons_of_mem e hd, h⟩

theorem foldl_maxConf_le (l : List Detection) (a b : ℚ) (ha : a ≤ b)
    (h : ∀ d ∈ l, d.conf ≤ b) :
    l.foldl (fun q d => max q d.conf) a ≤ b := by
  induction l generalizing a with
  | nil => exact ha
  | cons e es ih =>
    rw [List.foldl_cons]
    exact ih (max a e.conf) (max_le ha (h e (List.mem_cons_self e es)))
      (fun d hd => h d (List.mem_cons_of_mem e hd))

/-! ### Claim theorems -/

/-- C2: `is_weed_class` returns true exactly when the lowercased class name
contains one of the five marker keywords as a substring; the three
concrete examples of the spec hold (`Weed_Grass` is a target, `rice` is
not, `WEED` is a target); and the result is invariant under changing the
case of the argument. -/
theorem c2_is_weed_class_spec :
    (∀ s : List Char,
      is_weed_class s = true ↔ ∃ k ∈ weed_keywords, OccursIn k (lowerName s)) ∧
    is_weed_class ("Weed_Grass".toList) = true ∧
    is_weed_class ("rice".toList) = false ∧
    is_weed_class ("WEED".toList) = true ∧
    (∀ s t : List Char, lowerName s = lowerName t → is_weed_class s = is_weed_class t) := by
  refine ⟨?_, by decide, by decide, by decide, ?_⟩
  · intro s
    simp only [is_weed_class, List.any_eq_true, containsSub_iff]
  · intro s t h
    simp only [is_weed_class]
    rw [h]

/-- C4: the alert throttle evaluated on the code. The sub-minute scenario of
the claim holds (permit from the empty state at t=0, deny at t=30, permit
at t=61, deny immediately after a permit), but the universal cooldown rule
fails for durations beyond one day: one day and 30 seconds after the last
alert (elapsed 86430 s, far beyond the 60 s cooldown) the alert is denied,
because the code tests the `seconds` field of the timedelta, which wraps
modulo one day instead of giving the total elapsed seconds. -/
theorem c4_throttle_wraps_at_one_day :
    should_alert none 0 = (true, some 0) ∧
    (should_alert (some 0) 30).1 = false ∧
    (should_alert (some 0) 61).1 = true ∧
    (should_alert (some 61) 61).1 = false ∧
    86430 - 0 > 60 ∧ (should_alert (some 0) 86430).1 = false := by
  decide

/-- C8 counterexample: from a live session holding a captured frame, the
close transition leaves `current_webcam_frame` set, so `stop_webcam` does
not clear the last frame as the claim states. -/
theorem c8_frame_survives_close :
    (stop_webcam runningSession).current_webcam_frame = some 7 ∧
    (stop_webcam runningSession).current_webcam_frame ≠ none := by
  decide

/-- C8 (amended): from every lifecycle state, `stop_webcam` reaches the
closed state — device handle released, running flag false, both mode
flags false — while `current_webcam_frame` is retained, not cleared; the
transition is total and idempotent, so invoking it again from the closed
state leaves the same closed state. -/
theorem c8_close_transition (s : AppState) :
    (stop_webcam s).webcam_running = false ∧
    (stop_webcam s).cap = none ∧
    (stop_webcam s).snapshot_mode = false ∧
    (stop_webcam s).realtime_mode = false ∧
    (stop_webcam s).current_webcam_frame = s.current_webcam_frame ∧
    stop_webcam (stop_webcam s) = stop_webcam s := by
  simp [stop_webcam]

/-- C5: with no model loaded, or a missing image path, or an unreadable
image, `detect_weeds` short-circuits to the unavailable outcome
`(None, False, 0, 0.0)` with zero detections. -/
theorem c5_fatal_short_circuit (det : Detector) (env : Env)
    (h : det.model = none ∨ env.pathExists = false ∨ env.imageLoad = Except.error ()) :
    detect_weeds det env = failResult := by
  obtain ⟨mo, th⟩ := det
  obtain ⟨p, il, pr, cv, an⟩ := env
  rcases h with h | h | h
  · simp only at h
    subst h
    rfl
  · simp only at h
    subst h
    cases mo <;> simp [detect_weeds]
  · simp only at h
    subst h
    cases mo <;> cases p <;> simp [detect_weeds]

/-- C5 witness: the fatal short-circuit at a concrete unloaded detector. -/
theorem c5_fatal_short_circuit_witness :
    detect_weeds ⟨none, 1/2⟩ zeroConfEnv = failResult :=
  c5_fatal_short_circuit ⟨none, 1/2⟩ zeroConfEnv (Or.inl rfl)

/-- C7: when the backend raises during prediction or during conversion, the
exception is caught and converted into a result equivalent to zero
detections for that call (no weed flag, zero count, zero confidence), and
the detector state — in particular the loaded model — passes through the
call unchanged. -/
theorem c7_backend_error_contained (det : Detector) (env : Env)
    (h : env.predict = Except.error () ∨ env.convert = Except.error ()) :
    (detect_weeds_run det env).1 = det ∧
    (detect_weeds_run det env).2.weed_detected = false ∧
    (detect_weeds_run det env).2.weed_count = 0 ∧
    (detect_weeds_run det env).2.max_confidence = 0 := by
  obtain ⟨mo, th⟩ := det
  obtain ⟨p, il, pr, cv, an⟩ := env
  simp only at h
  refine ⟨rfl, ?_⟩
  simp only [detect_weeds_run]
  cases mo with
  | none => simp [detect_weeds, failResult]
  | some m =>
    cases p with
    | false => simp [detect_weeds, failResult]
    | true =>
      cases il with
      | error u => simp [detect_weeds, failResult]
      | ok img =>
        rcases h with h | h
        · cases pr with
          | error u => simp [detect_weeds, failResult]
          | ok rs => simp at h
        · cases pr with
          | error u => simp [detect_weeds, failResult]
          | ok rs =>
            cases cv with
            | error u =>
              cases rs with
              | nil => simp [detect_weeds]
              | cons r rs2 => simp [detect_weeds]
            | ok dets => simp at h

/-- C7 witness: a concrete prediction-stage exception with a loaded model. -/
theorem c7_backend_error_contained_witness :
    (detect_weeds_run loadedDetector predictFailEnv).1 = loadedDetector ∧
    (detect_weeds_run loadedDetector predictFailEnv).2.weed_detected = false ∧
    (detect_weeds_run loadedDetector predictFailEnv).2.weed_count = 0 ∧
    (detect_weeds_run loadedDetector predictFailEnv).2.max_confidence = 0 :=
  c7_backend_error_contained loadedDetector predictFailEnv (Or.inl rfl)

/-- C6: when classification has succeeded and the drawing stage raises, the
call returns the original unannotated image together with the verdict
computed from the detections; and the verdict triple is identical to the
one an annotation-succeeding run of the same call would return. -/
theorem c6_annotation_failure_returns_original (det : Detector) (m : YoloModel)
    (env : Env) (img : ImageData) (results : List Unit) (dets : List Detection)
    (hm : det.model = some m) (hp : env.pathExists = true)
    (hi : env.imageLoad = Except.ok img) (hr : env.predict = Except.ok results)
    (hne : results ≠ []) (hc : env.convert = Except.ok dets)
    (ha : env.annotate = Except.error ()) :
    detect_weeds det env =
      ⟨some img, (classifyDetections m dets).1, (classifyDetections m dets).2.1,
        (classifyDetections m dets).2.2⟩ ∧
    ∀ a : ImageData,
      (detect_weeds det { env with annotate := Except.ok a }).weed_detected =
        (detect_weeds det env).weed_detected ∧
      (detect_weeds det { env with annotate := Except.ok a }).weed_count =
        (detect_weeds det env).weed_count ∧
      (detect_weeds det { env with annotate := Except.ok a }).max_confidence =
        (detect_weeds det env).max_confidence := by
  obtain ⟨mo, th⟩ := det
  obtain ⟨p, il, pr, cv, an⟩ := env
  simp only at hm hp hi hr hc ha
  subst hm hp hi hr hc ha
  cases results with
  | nil => cases hne rfl
  | cons r rs =>
    cases dets with
    | nil => constructor <;> simp [detect_weeds]
    | cons d ds => constructor <;> simp [detect_weeds]

/-- C6 witness: a concrete call whose drawing stage raises after a
successful single-detection classification. -/
theorem c6_annotation_failure_witness :
    detect_weeds loadedDetector annotFailEnv =
      ⟨some 5, (classifyDetections weedOnlyModel [⟨0, 1/2⟩]).1,
        (classifyDetections weedOnlyModel [⟨0, 1/2⟩]).2.1,
        (classifyDetections weedOnlyModel [⟨0, 1/2⟩]).2.2⟩ :=
  (c6_annotation_failure_returns_original loadedDetector weedOnlyModel annotFailEnv
    5 [()] [⟨0, 1/2⟩] rfl rfl rfl rfl (by decide) rfl rfl).1

/-- C9: two-run determinism of the classification portion. Two calls of
`detect_weeds` on the same detector whose environments agree on the
filesystem, the loaded image, the prediction outcome and the conversion
outcome — i.e. deterministic inference — return the same `triggered`,
`trigger_count` and `max_confidence`, whatever the drawing stage does in
either run. -/
theorem c9_two_run_determinism (det : Detector) (env1 env2 : Env)
    (hp : env1.pathExists = env2.pathExists) (hi : env1.imageLoad = env2.imageLoad)
    (hr : env1.predict = env2.predict) (hc : env1.convert = env2.convert) :
    (detect_weeds det env1).weed_detected = (detect_weeds det env2).weed_detected ∧
    (detect_weeds det env1).weed_count = (detect_weeds det env2).weed_count ∧
    (detect_weeds det env1).max_confidence = (detect_weeds det env2).max_confidence := by
  obtain ⟨mo, th⟩ := det
  obtain ⟨p1, il1, pr1, cv1, an1⟩ := env1
  obtain ⟨p2, il2, pr2, cv2, an2⟩ := env2
  simp only at hp hi hr hc
  subst hp hi hr hc
  cases mo with
  | none => simp [detect_weeds]
  | some m =>
    cases p1 with
    | false => simp [detect_weeds]
    | true =>
      cases il1 with
      | error u => simp [detect_weeds]
      | ok img =>
        cases pr1 with
        | error u => simp [detect_weeds]
        | ok rs =>
          cases rs with
          | nil => simp [detect_weeds]
          | cons r rs2 =>
            cases cv1 with
            | error u => simp [detect_weeds]
            | ok dets => cases dets <;> simp [detect_weeds]

/-- C9 witness: the determinism at two concrete runs that differ only in the
outcome of the drawing stage. -/
theorem c9_two_run_determinism_witness :
    (detect_weeds loadedDetector annotFailEnv).weed_detected =
      (detect_weeds loadedDetector annotOkEnv).weed_detected ∧
    (detect_weeds loadedDetector annotFailEnv).weed_count =
      (detect_weeds loadedDetector annotOkEnv).weed_count ∧
    (detect_weeds loadedDetector annotFailEnv).max_confidence =
      (detect_weeds loadedDetector annotOkEnv).max_confidence :=
  c9_two_run_determinism loadedDetector annotFailEnv annotOkEnv rfl rfl rfl rfl

/-- C10: `detect_weeds` is total at its interface — the embedding is a total
function into the result 4-tuple, every failure branch included — and
whenever the confidences handed over by the conversion stage lie in
`[0, 1]`, the returned `max_confidence` lies in `[0, 1]` as well (the
count is a natural number, hence non-negative by type). -/
theorem c10_total_and_bounded (det : Detector) (env : Env)
    (h : ∀ d ∈ envConvList env, 0 ≤ d.conf ∧ d.conf ≤ 1) :
    0 ≤ (detect_weeds det env).max_confidence ∧
      (detect_weeds det env).max_confidence ≤ 1 := by
  obtain ⟨mo, th⟩ := det
  obtain ⟨p, il, pr, cv, an⟩ := env
  simp only [envConvList] at h
  cases mo with
  | none => simp [detect_weeds, failResult]
  | some m =>
    cases p with
    | false => simp [detect_weeds, failResult]
    | true =>
      cases il with
      | error u => simp [detect_weeds, failResult]
      | ok img =>
        cases pr with
        | error u => simp [detect_weeds, failResult]
        | ok rs =>
          cases rs with
          | nil => simp [detect_weeds]
          | cons r rs2 =>
            cases cv with
            | error u => simp [detect_weeds]
            | ok dets =>
              simp only at h
              have hmax := classify_foldl_max m dets (false, 0, 0)
              have hlow :
                  (0 : ℚ) ≤ (classifyDetections m dets).2.2 := by
                rw [classifyDetections, hmax]
                exact le_foldl_maxConf _ 0
              have hhigh : (classifyDetections m dets).2.2 ≤ 1 := by
                rw [classifyDetections, hmax]
                exact foldl_maxConf_le _ 0 1 (by norm_num)
                  (fun d hd => (h d (List.mem_of_mem_filter hd)).2)
              cases dets <;> simpa [detect_weeds] using ⟨hlow, hhigh⟩

/-- C10 witness: the confidence bound at a concrete successful call. -/
theorem c10_total_and_bounded_witness :
    0 ≤ (detect_weeds loadedDetector annotFailEnv).max_confidence ∧
      (detect_weeds loadedDetector annotFailEnv).max_confidence ≤ 1 :=
  c10_total_and_bounded loadedDetector annotFailEnv
    (by norm_num [envConvList, annotFailEnv])

/-- C3 (engine modelled from the spec): the inference stage keeps a raw
detection exactly when its confidence is at least the configured
threshold, so no retained detection falls strictly below the threshold,
a detection whose confidence equals the threshold exactly is retained,
and the downstream classification loop therefore counts only detections
meeting the threshold. -/
theorem c3_threshold_exclusive_below (raw : List Detection) (t : ℚ) :
    (∀ d ∈ enginePredict raw t, t ≤ d.conf) ∧
    (∀ d ∈ raw, d.conf = t → d ∈ enginePredict raw t) ∧
    (∀ d, d ∈ enginePredict raw t ↔ d ∈ raw ∧ t ≤ d.conf) ∧
    (∀ m : YoloModel,
      (classifyDetections m (enginePredict raw t)).2.1 =
        (raw.filter (fun d => t ≤ d.conf ∧ isTarget m d)).length) := by
  refine ⟨?_, ?_, ?_, ?_⟩
  · intro d hd
    exact (List.mem_filter.mp hd).2 |> of_decide_eq_true
  · intro d hd he
    exact List.mem_filter.mpr ⟨hd, decide_eq_true (le_of_eq he.symm)⟩
  · intro d
    constructor
    · intro hd
      exact ⟨(List.mem_filter.mp hd).1, of_decide_eq_true (List.mem_filter.mp hd).2⟩
    · intro ⟨hd, hle⟩
      exact List.mem_filter.mpr ⟨hd, decide_eq_true hle⟩
  · intro m
    have := classify_foldl_count m (enginePredict raw t) (false, 0, 0)
    rw [classifyDetections, this, Nat.zero_add, enginePredict, List.filter_filter]
    congr 1
    refine List.filter_congr ?_
    intro d _
    by_cases h1 : isTarget m d <;> by_cases h2 : t ≤ d.conf <;> simp [h1, h2]

/-- C1 counterexample: a call that reaches the classification stage with a
single target detection of confidence exactly 0 (reachable with a zero
confidence threshold, at which the spec itself retains a detection whose
confidence equals the threshold) returns `trigger_count = 1` yet
`max_confidence = 0.0`, so `max_confidence = 0.0` does not hold iff
`trigger_count = 0`. -/
theorem c1_zero_confidence_counterexample :
    (detect_weeds zeroThresholdDetector zeroConfEnv).weed_count = 1 ∧
    (detect_weeds zeroThresholdDetector zeroConfEnv).max_confidence = 0 ∧
    ¬((detect_weeds zeroThresholdDetector zeroConfEnv).max_confidence = 0 ↔
      (detect_weeds zeroThresholdDetector zeroConfEnv).weed_count = 0) := by
  decide

/-- C1 (amended): for every call reaching the classification stage with the
non-negative confidences the engine delivers, `trigger_count` equals the
number of detections satisfying the Target Classifier, `triggered` holds
iff that count is at least one, `max_confidence` is the maximum
confidence attained among the target detections, or 0.0 when there are
none; and `max_confidence = 0.0` holds iff `trigger_count = 0` provided
every confidence is strictly positive (as whenever the threshold is). -/
theorem c1_classification_stats (m : YoloModel) (dets : List Detection)
    (hnn : ∀ d ∈ dets, 0 ≤ d.conf) :
    (classifyDetections m dets).2.1 = (dets.filter (isTarget m)).length ∧
    ((classifyDetections m dets).1 = true ↔ 0 < (dets.filter (isTarget m)).length) ∧
    (dets.filter (isTarget m) ≠ [] →
      (∃ d ∈ dets.filter (isTarget m), (classifyDetections m dets).2.2 = d.conf) ∧
      ∀ d ∈ dets.filter (isTarget m), d.conf ≤ (classifyDetections m dets).2.2) ∧
    (dets.filter (isTarget m) = [] → (classifyDetections m dets).2.2 = 0) ∧
    ((∀ d ∈ dets, 0 < d.conf) →
      ((classifyDetections m dets).2.2 = 0 ↔ (classifyDetections m dets).2.1 = 0)) := by
  have hcount : (classifyDetections m dets).2.1 =
      0 + (dets.filter (isTarget m)).length :=
    classify_foldl_count m dets (false, 0, 0)
  rw [Nat.zero_add] at hcount
  have hflag : (classifyDetections m dets).1 =
      (false || !(dets.filter (isTarget m)).isEmpty) :=
    classify_foldl_flag m dets (false, 0, 0)
  rw [Bool.false_or] at hflag
  have hmax : (classifyDetections m dets).2.2 =
      (dets.filter (isTarget m)).foldl (fun q d => max q d.conf) 0 :=
    classify_foldl_max m dets (false, 0, 0)
  refine ⟨hcount, ?_, ?_, ?_, ?_⟩
  · rw [hflag]
    cases hf : dets.filter (isTarget m) <;> simp
  · intro hne
    constructor
    · rcases foldl_maxConf_eq_or_mem (dets.filter (isTarget m)) 0 with h0 | ⟨d, hd, h⟩
      · obtain ⟨e, es, hf⟩ := List.exists_cons_of_ne_nil hne
        have he_mem : e ∈ dets.filter (isTarget m) := by
          rw [hf]
          exact List.mem_cons_self e es
        have h1 : e.conf ≤ 0 := by
          have h2 := conf_le_foldl_maxConf (dets.filter (isTarget m)) 0 e he_mem
          rwa [h0] at h2
        refine ⟨e, he_mem, ?_⟩
        rw [hmax, h0]
        exact (le_antisymm h1 (hnn e (List.mem_of_mem_filter he_mem))).symm
      · exact ⟨d, hd, by rw [hmax]; exact h⟩
    · intro d hd
      rw [hmax]
      exact conf_le_foldl_maxConf _ 0 d hd
  · intro he
    rw [hmax, he]
    rfl
  · intro hpos
    constructor
    · intro h0
      by_cases hf : dets.filter (isTarget m) = []
      · rw [hcount, hf]
        rfl
      · obtain ⟨e, es, hfe⟩ := List.exists_cons_of_ne_nil hf
        have he_mem : e ∈ dets.filter (isTarget m) := by
          rw [hfe]
          exact List.mem_cons_self e es
        have h1 : e.conf ≤ 0 := by
          have h2 := conf_le_foldl_maxConf (dets.filter (isTarget m)) 0 e he_mem
          rw [← hmax, h0] at h2
          exact h2
        exact absurd h1 (not_le.mpr (hpos e (List.mem_of_mem_filter he_mem)))
    · intro hc
      have hlen : (dets.filter (isTarget m)).length = 0 := by
        rw [← hcount]
        exact hc
      rw [hmax, List.length_eq_zero.mp hlen]
      rfl

/-- C1 witness: the amended statement at a concrete single-detection call. -/
theorem c1_classification_stats_witness :
    (∀ d ∈ ([⟨0, 1⟩] : List Detection), 0 ≤ d.conf) ∧
    ((classifyDetections weedOnlyModel [⟨0, 1⟩]).2.1 =
        (([⟨0, 1⟩] : List Detection).filter (isTarget weedOnlyModel)).length ∧
      ((classifyDetections weedOnlyModel [⟨0, 1⟩]).1 = true ↔
        0 < (([⟨0, 1⟩] : List Detection).filter (isTarget weedOnlyModel)).length) ∧
      (([⟨0, 1⟩] : List Detection).filter (isTarget weedOnlyModel) ≠ [] →
        (∃ d ∈ ([⟨0, 1⟩] : List Detection).filter (isTarget weedOnlyModel),
          (classifyDetections weedOnlyModel [⟨0, 1⟩]).2.2 = d.conf) ∧
        ∀ d ∈ ([⟨0, 1⟩] : List Detection).filter (isTarget weedOnlyModel),
          d.conf ≤ (classifyDetections weedOnlyModel [⟨0, 1⟩]).2.2) ∧
      (([⟨0, 1⟩] : List Detection).filter (isTarget weedOnlyModel) = [] →
        (classifyDetections weedOnlyModel [⟨0, 1⟩]).2.2 = 0) ∧
      ((∀ d ∈ ([⟨0, 1⟩] : List Detection), 0 < d.conf) →
        ((classifyDetections weedOnlyModel [⟨0, 1⟩]).2.2 = 0 ↔
          (classifyDetections weedOnlyModel [⟨0, 1⟩]).2.1 = 0))) :=
  ⟨by decide, c1_classification_stats weedOnlyModel [⟨0, 1⟩] (by decide)⟩

end RiceWeed
